import Mathlib

/-!
Shallow embedding of the Adventar gRPC service layer
(`grpc-server/service.go`) and verification of its specified behaviour.

The relational store is modelled as lists of rows plus auto-increment
counters; SQL statements are translated clause by clause (WHERE filters,
inner joins via `find?`, `order by` via `mergeSort`, UPDATE/DELETE via
`map`/`filter`).  The external collaborators (identity verifier and
metadata fetcher) are function-valued fields of `Env`.  Fallible paths
return `Except`/`Outcome` values; `Outcome.nilPanic` marks a Go runtime
nil-pointer dereference.
-/

namespace Adventar

/-- Authentication result produced by the external identity verifier
(`verifier.VerifyIDToken`). -/
structure AuthResult where
  authProvider : String
  authUID : String
  name : String
  iconURL : String
deriving DecidableEq

/-- Link metadata produced by the external metadata fetcher (`metaFetcher.Fetch`). -/
structure SiteMeta where
  title : String
  imageURL : String
deriving DecidableEq

/-- A row of the `users` table. -/
structure UserRow where
  id : Int
  name : String
  iconURL : String
  authProvider : String
  authUID : String
deriving DecidableEq

/-- A row of the `calendars` table. -/
structure CalendarRow where
  id : Int
  userId : Int
  title : String
  description : String
  year : Int
deriving DecidableEq

/-- A row of the `entries` table. -/
structure EntryRow where
  id : Int
  userId : Int
  calendarId : Int
  day : Int
  title : String
  comment : String
  url : String
  imageURL : String
deriving DecidableEq

/-- The relational store: the three tables plus their auto-increment
counters (`LastInsertId` of the next INSERT). -/
structure DB where
  users : List UserRow
  calendars : List CalendarRow
  entries : List EntryRow
  nextUserId : Int
  nextCalendarId : Int
  nextEntryId : Int
deriving DecidableEq

/-- The service's external collaborators: `verifier` (whose Go interface
returns no error) and `metaFetcher` (which can fail). -/
structure Env where
  verifyIDToken : String → AuthResult
  fetch : String → Except Unit SiteMeta

/-- Incoming request context, reduced to what `getCurrentUser` reads:
`none` models `metadata.FromIncomingContext` failing, `some values` the
`authorization` values of the present metadata (possibly empty). -/
def Ctx : Type := Option (List String)

/-- Errors returned by the service, one constructor per distinct Go error
source: the two `fmt.Errorf` cases of `getCurrentUser`, `sql.ErrNoRows`
from a `QueryRow(...).Scan`, the day-bound `fmt.Errorf`, the blank-name
`fmt.Errorf`, a metadata-fetch failure, and a database query failure. -/
inductive Err where
  | notFoundMetadata
  | notFoundAuthorizationValue
  | errNoRows
  | invalidDay (day : Int)
  | nameIsBlank
  | fetchFailed
  | queryFailed
deriving DecidableEq

/-- Observable outcome of a handler: a response, an error status, or a Go
runtime panic from dereferencing a nil pointer. -/
inductive Outcome (α : Type) where
  | ok (value : α)
  | fail (e : Err)
  | nilPanic
deriving DecidableEq

/-- Models `select id, name, icon_url from users where auth_provider = ?
and auth_uid = ?` read through `QueryRow(...).Scan`: the first matching
row, or `sql.ErrNoRows` (here `none`) when there is none. -/
def findUserByAuth (db : DB) (provider uid : String) : Option UserRow :=
  db.users.find? (fun u => u.authProvider == provider && u.authUID == uid)

/-- Embeds `Service.getCurrentUser`: require metadata, require an
`authorization` value, verify it, and resolve the local users row (a
verified identity with no local row is rejected, not auto-provisioned). -/
def getCurrentUser (s : Env) (ctx : Ctx) (db : DB) : Except Err UserRow :=
  match ctx with
  | none => .error .notFoundMetadata
  | some values =>
    match values with
    | [] => .error .notFoundAuthorizationValue
    | v :: _ =>
      let authResult := s.verifyIDToken v
      match findUserByAuth db authResult.authProvider authResult.authUID with
      | none => .error .errNoRows
      | some u => .ok u

/-- Response-side user object (`pb.User`). -/
structure PbUser where
  id : Int
  name : String
  iconURL : String
deriving DecidableEq

/-- Response-side calendar object (`pb.Calendar`); `owner` and the embedded
pointers are `none` when the Go code leaves them nil. -/
structure PbCalendar where
  id : Int
  title : String
  description : String
  year : Int
  entryCount : Nat
  owner : Option PbUser
deriving DecidableEq

/-- Response-side entry object (`pb.Entry`). -/
structure PbEntry where
  id : Int
  day : Int
  title : String
  comment : String
  url : String
  imageURL : String
  calendar : Option PbCalendar
  owner : Option PbUser
deriving DecidableEq

/-- Request message of `ListCalendars`; the zero values 0 and "" mean
"filter absent", as in the Go conditionals. -/
structure ListCalendarsRequest where
  year : Int
  userId : Int
  query : String
  pageSize : Int

/-- Models the SQL predicate `s like '%' + q + '%'`: `q` occurs as a
substring of `s`. -/
def sqlLikeContains (s q : String) : Bool :=
  decide (q.toList <:+: s.toList)

/-- Embeds the WHERE clause built by `ListCalendars`: `c.year = ?` always,
`c.user_id = ?` when the request's userId is nonzero, and the
title-or-description like-filter when the query string is nonempty. -/
def calendarWhere (req : ListCalendarsRequest) (c : CalendarRow) : Bool :=
  c.year == req.year &&
    (req.userId == 0 || c.userId == req.userId) &&
    (req.query == "" ||
      (sqlLikeContains c.title req.query || sqlLikeContains c.description req.query))

/-- Models `inner join users as u on u.id = c.user_id`: a calendars row
without a matching users row is dropped by the join. -/
def joinCalendarOwner (db : DB) (c : CalendarRow) : Option (CalendarRow × UserRow) :=
  (db.users.find? (fun u => u.id == c.userId)).map (fun u => (c, u))

/-- Comparator realising `order by c.id desc`. -/
def calendarIdDesc (a b : CalendarRow × UserRow) : Bool :=
  decide (b.1.id ≤ a.1.id)

/-- Result rows of the `ListCalendars` SQL query: WHERE filter, join with
owners, `order by c.id desc`, and the optional `limit ?` which the source
appends only when pageSize is nonzero. -/
def listCalendarsRows (db : DB) (req : ListCalendarsRequest) :
    List (CalendarRow × UserRow) :=
  let rows :=
    ((db.calendars.filter (calendarWhere req)).filterMap (joinCalendarOwner db)).mergeSort
      calendarIdDesc
  if req.pageSize == 0 then rows else rows.take req.pageSize.toNat

/-- The owner snapshot scanned into `pb.User` (id, name, icon_url). -/
def userSnapshot (u : UserRow) : PbUser :=
  { id := u.id, name := u.name, iconURL := u.iconURL }

/-- The row scan of `ListCalendars`: EntryCount keeps its zero value at
this point, the owner is attached. -/
def scanCalendar (row : CalendarRow × UserRow) : PbCalendar :=
  { id := row.1.id, title := row.1.title, description := row.1.description,
    year := row.1.year, entryCount := 0, owner := some (userSnapshot row.2) }

/-- Number of entries rows referencing a calendar id: the value the grouped
aggregate `select calendar_id, count(*) from entries where calendar_id in
(...) group by calendar_id` yields for that id, with the `entryCounts` map
defaulting to 0 for ids the grouping did not produce. -/
def entryCountFor (db : DB) (cid : Int) : Nat :=
  (db.entries.filter (fun e => e.calendarId == cid)).length

/-- Embeds `Service.bindEntryCount`: writes each calendar's EntryCount from
the aggregate query's counts. -/
def bindEntryCount (db : DB) (calendars : List PbCalendar) : List PbCalendar :=
  calendars.map (fun c => { c with entryCount := entryCountFor db c.id })

/-- Response message of `ListCalendars`. -/
structure ListCalendarsResponse where
  calendars : List PbCalendar
deriving DecidableEq

/-- Embeds `Service.ListCalendars`.  The boolean of the result records
whether the aggregate entry-count query ran: the source guards
`bindEntryCount` behind `len(calendars) != 0`. -/
def listCalendars (db : DB) (req : ListCalendarsRequest) :
    ListCalendarsResponse × Bool :=
  let calendars := (listCalendarsRows db req).map scanCalendar
  if calendars.length != 0 then
    ({ calendars := bindEntryCount db calendars }, true)
  else
    ({ calendars := calendars }, false)

/-- Request message of `GetCalendar`. -/
structure GetCalendarRequest where
  calendarId : Int

/-- Comparator realising `order by e.day` on entry-owner rows. -/
def entryDayAsc (a b : EntryRow × UserRow) : Bool :=
  decide (a.1.day ≤ b.1.day)

/-- Embeds `Service.findEntries`: the entries of one calendar inner-joined
with their owners, ordered by day ascending, scanned into `pb.Entry`
objects whose embedded calendar stays nil. -/
def findEntries (db : DB) (cid : Int) : List PbEntry :=
  (((db.entries.filter (fun e => e.calendarId == cid)).filterMap
        (fun e => (db.users.find? (fun u => u.id == e.userId)).map (fun u => (e, u)))).mergeSort
      entryDayAsc).map
    (fun row =>
      { id := row.1.id, day := row.1.day, title := row.1.title,
        comment := row.1.comment, url := row.1.url, imageURL := row.1.imageURL,
        calendar := none, owner := some (userSnapshot row.2) })

/-- Response message of `GetCalendar`. -/
structure GetCalendarResponse where
  calendar : PbCalendar
  entries : List PbEntry
deriving DecidableEq

/-- The response `GetCalendar` builds for a present calendar row `c`. -/
def getCalendarOk (db : DB) (c : CalendarRow) : GetCalendarResponse :=
  { calendar := { id := c.id, title := c.title, description := c.description,
                  year := c.year, entryCount := (findEntries db c.id).length,
                  owner := none },
    entries := findEntries db c.id }

/-- Embeds `Service.GetCalendar`: fetch the calendar by id (`sql.ErrNoRows`
when absent), attach `findEntries`, and set EntryCount to the length of the
returned entry list. -/
def getCalendar (db : DB) (req : GetCalendarRequest) : Except Err GetCalendarResponse :=
  match db.calendars.find? (fun c => c.id == req.calendarId) with
  | none => .error .errNoRows
  | some c =>
    let entries := findEntries db c.id
    .ok { calendar := { id := c.id, title := c.title, description := c.description,
                        year := c.year, entryCount := entries.length, owner := none },
          entries := entries }

/-- Request message of `UpdateCalendar`. -/
structure UpdateCalendarRequest where
  calendarId : Int
  title : String
  description : String

/-- Effect of the UPDATE `update calendars set title = ?, description = ?
where id = ? and user_id = ?` on one stored row. -/
def updateCalendarRow (req : UpdateCalendarRequest) (uid : Int) (c : CalendarRow) :
    CalendarRow :=
  if c.id == req.calendarId && c.userId == uid then
    { c with title := req.title, description := req.description }
  else c

/-- Embeds `Service.UpdateCalendar`: an UPDATE scoped to
`id = ? and user_id = ?`, then a re-read by id alone whose row is returned
(year included, owner and EntryCount left at their zero values). -/
def updateCalendar (s : Env) (ctx : Ctx) (db : DB) (req : UpdateCalendarRequest) :
    Except Err PbCalendar × DB :=
  match getCurrentUser s ctx db with
  | .error e => (.error e, db)
  | .ok currentUser =>
    let db1 := { db with calendars := db.calendars.map (updateCalendarRow req currentUser.id) }
    match db1.calendars.find? (fun c => c.id == req.calendarId) with
    | none => (.error .errNoRows, db1)
    | some c =>
      (.ok { id := c.id, title := c.title, description := c.description,
             year := c.year, entryCount := 0, owner := none }, db1)

/-- Request message of `DeleteCalendar`. -/
structure DeleteCalendarRequest where
  calendarId : Int

/-- Embeds `Service.DeleteCalendar`.  The source discards the error of
`getCurrentUser` — the `err` variable is immediately overwritten by the
`Prepare` error and never checked — so on an authentication failure
`currentUser` is nil and evaluating `currentUser.ID` as an `Exec` argument
dereferences a nil pointer: the outcome is `Outcome.nilPanic` and the
database is untouched (the panic precedes the DELETE).  On success the
DELETE is scoped to `id = ? and user_id = ?`. -/
def deleteCalendar (s : Env) (ctx : Ctx) (db : DB) (req : DeleteCalendarRequest) :
    Outcome Unit × DB :=
  match getCurrentUser s ctx db with
  | .error _ => (.nilPanic, db)
  | .ok currentUser =>
    (.ok (), { db with calendars := db.calendars.filter (fun c =>
      !(c.id == req.calendarId && c.userId == currentUser.id)) })

/-- Request message of `ListEntries`; year 0 means "no year filter". -/
structure ListEntriesRequest where
  userId : Int
  year : Int

/-- Embeds the WHERE clause of `ListEntries`: `e.user_id = ?` always, plus
`c.year = ?` when the request year is nonzero. -/
def entriesWhere (req : ListEntriesRequest) (row : EntryRow × CalendarRow × UserRow) :
    Bool :=
  row.1.userId == req.userId && (req.year == 0 || row.2.1.year == req.year)

/-- Models the two inner joins of `ListEntries`: an entries row joined with
its users row and its calendars row, dropped when either is missing. -/
def joinEntry (db : DB) (e : EntryRow) : Option (EntryRow × CalendarRow × UserRow) :=
  match db.users.find? (fun u => u.id == e.userId) with
  | none => none
  | some u =>
    match db.calendars.find? (fun c => c.id == e.calendarId) with
    | none => none
    | some c => some (e, c, u)

/-- Comparator realising `order by e.day` on entry-calendar-owner rows. -/
def entryDayAsc3 (a b : EntryRow × CalendarRow × UserRow) : Bool :=
  decide (a.1.day ≤ b.1.day)

/-- Result rows of the `ListEntries` SQL query: joins, WHERE filter,
`order by e.day`. -/
def listEntriesRows (db : DB) (req : ListEntriesRequest) :
    List (EntryRow × CalendarRow × UserRow) :=
  ((db.entries.filterMap (joinEntry db)).filter (entriesWhere req)).mergeSort entryDayAsc3

/-- The calendar snapshot `ListEntries` scans into `pb.Calendar`: the SQL
selects only c.id, c.title and c.description, so the other fields keep
their zero values. -/
def calendarSnapshot (c : CalendarRow) : PbCalendar :=
  { id := c.id, title := c.title, description := c.description, year := 0,
    entryCount := 0, owner := none }

/-- The row scan of `ListEntries`: entry fields plus the embedded calendar
snapshot and owner snapshot. -/
def scanEntry (row : EntryRow × CalendarRow × UserRow) : PbEntry :=
  { id := row.1.id, day := row.1.day, title := row.1.title,
    comment := row.1.comment, url := row.1.url, imageURL := row.1.imageURL,
    calendar := some (calendarSnapshot row.2.1),
    owner := some (userSnapshot row.2.2) }

/-- Response message of `ListEntries`. -/
structure ListEntriesResponse where
  entries : List PbEntry
deriving DecidableEq

/-- A deferred `rows.Close()` wrapping every return path of the function
body: `(*sql.Rows).Close` on a nil handle dereferences its receiver (it
locks `rs.closemu`), so the deferred call panics when the handle is nil and
is harmless otherwise. -/
def deferRowsClose {α : Type} {ρ : Type} (rows : Option ρ) (body : Outcome α) :
    Outcome α :=
  match rows with
  | none => .nilPanic
  | some _ => body

/-- Embeds `Service.ListEntries`, keeping the source's statement order:
`rows, err := s.db.Query(...)` is followed by `defer rows.Close()` BEFORE
the `if err != nil` check, so when the query fails (`rows` nil) the
deferred close runs on the nil handle while the error return unwinds.
`queryFails` says whether this `Query` call fails; when it succeeds the
rows are `listEntriesRows`. -/
def listEntries (db : DB) (req : ListEntriesRequest) (queryFails : Bool) :
    Outcome ListEntriesResponse :=
  if queryFails then
    deferRowsClose (none : Option (List (EntryRow × CalendarRow × UserRow)))
      (.fail .queryFailed)
  else
    deferRowsClose (some (listEntriesRows db req))
      (.ok { entries := (listEntriesRows db req).map scanEntry })

/-- Request message of `CreateEntry`. -/
structure CreateEntryRequest where
  calendarId : Int
  day : Int

/-- The row inserted by `CreateEntry`: `insert into entries(user_id,
calendar_id, day, comment, url, title, image_url) values(?, ?, ?, '', '',
'', '')`. -/
def newEntryRow (eid uid : Int) (req : CreateEntryRequest) : EntryRow :=
  { id := eid, userId := uid, calendarId := req.calendarId, day := req.day,
    title := "", comment := "", url := "", imageURL := "" }

/-- Embeds `Service.CreateEntry`: authenticate, read the calendar's year
(`sql.ErrNoRows` when the calendar is absent), check `1 ≤ day ≤ 25`,
insert the entries row with empty string fields, then re-read the new id
with `select id from calendars where id = lastID` — the source queries the
calendars table with the entry's id. -/
def createEntry (s : Env) (ctx : Ctx) (db : DB) (req : CreateEntryRequest) :
    Except Err PbEntry × DB :=
  match getCurrentUser s ctx db with
  | .error e => (.error e, db)
  | .ok currentUser =>
    match db.calendars.find? (fun c => c.id == req.calendarId) with
    | none => (.error .errNoRows, db)
    | some _ =>
      if req.day < 1 || req.day > 25 then (.error (.invalidDay req.day), db)
      else
        let lastID := db.nextEntryId
        let db1 := { db with
          entries := db.entries ++ [newEntryRow lastID currentUser.id req],
          nextEntryId := lastID + 1 }
        match db1.calendars.find? (fun c => c.id == lastID) with
        | none => (.error .errNoRows, db1)
        | some c =>
          (.ok { id := c.id, day := 0, title := "", comment := "", url := "",
                 imageURL := "", calendar := none, owner := none }, db1)

/-- Request message of `UpdateEntry`. -/
structure UpdateEntryRequest where
  entryId : Int
  comment : String
  url : String

/-- The final re-read of `UpdateEntry`: `select comment, url, title,
image_url from entries where id = ?` by id alone, echoed into the
response together with the request's entry id. -/
def updateEntryFinish (db : DB) (req : UpdateEntryRequest) : Except Err PbEntry × DB :=
  match db.entries.find? (fun e => e.id == req.entryId) with
  | none => (.error .errNoRows, db)
  | some e =>
    (.ok { id := req.entryId, day := 0, title := e.title, comment := e.comment,
           url := e.url, imageURL := e.imageURL, calendar := none, owner := none }, db)

/-- Effect of `update entries set comment = ?, url = ? where id = ? and
user_id = ?` on one stored row. -/
def updateEntryCommentRow (req : UpdateEntryRequest) (uid : Int) (e : EntryRow) :
    EntryRow :=
  if e.id == req.entryId && e.userId == uid then
    { e with comment := req.comment, url := req.url }
  else e

/-- Effect of `update entries set title = ?, image_url = ? where id = ? and
user_id = ?` on one stored row. -/
def updateEntryMetaRow (req : UpdateEntryRequest) (uid : Int) (m : SiteMeta)
    (e : EntryRow) : EntryRow :=
  if e.id == req.entryId && e.userId == uid then
    { e with title := m.title, imageURL := m.imageURL }
  else e

/-- Embeds `Service.UpdateEntry`: an owner-scoped UPDATE of comment and url
executes first; when the url is nonempty a synchronous metadata fetch
follows, whose failure is returned as the RPC's error with the first
UPDATE already applied (the source's TODO to ignore the error is not
implemented); on fetch success an owner-scoped UPDATE of title and
image_url runs, and the row is re-read by id alone. -/
def updateEntry (s : Env) (ctx : Ctx) (db : DB) (req : UpdateEntryRequest) :
    Except Err PbEntry × DB :=
  match getCurrentUser s ctx db with
  | .error e => (.error e, db)
  | .ok currentUser =>
    let db1 := { db with entries := db.entries.map (updateEntryCommentRow req currentUser.id) }
    if req.url != "" then
      match s.fetch req.url with
      | .error _ => (.error .fetchFailed, db1)
      | .ok m =>
        let db2 := { db1 with
          entries := db1.entries.map (updateEntryMetaRow req currentUser.id m) }
        updateEntryFinish db2 req
    else
      updateEntryFinish db1 req

/-- Request message of `SignIn`. -/
structure SignInRequest where
  jwt : String

/-- The row inserted by `SignIn`: `insert into users (name, auth_uid,
auth_provider, icon_url) values (?, ?, ?, ?)` from the verifier's result. -/
def newUserRow (uid : Int) (authResult : AuthResult) : UserRow :=
  { id := uid, name := authResult.name, iconURL := authResult.iconURL,
    authProvider := authResult.authProvider, authUID := authResult.authUID }

/-- Effect of `update users set icon_url = ? where id = ?` on one stored
row. -/
def signInIconRow (uid : Int) (icon : String) (v : UserRow) : UserRow :=
  if v.id == uid then { v with iconURL := icon } else v

/-- Embeds `Service.SignIn`: verify the token, look the user up by
`(auth_provider, auth_uid)`; on `sql.ErrNoRows` insert a new users row
from the verifier's result, otherwise update only `icon_url` of the row
whose id was scanned. -/
def signIn (s : Env) (db : DB) (req : SignInRequest) : Except Err Unit × DB :=
  let authResult := s.verifyIDToken req.jwt
  match findUserByAuth db authResult.authProvider authResult.authUID with
  | none =>
    (.ok (), { db with
      users := db.users ++ [newUserRow db.nextUserId authResult],
      nextUserId := db.nextUserId + 1 })
  | some u =>
    (.ok (), { db with users := db.users.map (signInIconRow u.id authResult.iconURL) })

/-- Well-formedness of a database state: the data-model invariants the spec
states (primary keys unique, foreign keys resolve, `(auth_provider,
auth_uid)` identifies at most one user) together with auto-increment
freshness (every stored id is below its table's counter). -/
def DB.WF (db : DB) : Prop :=
  (db.users.map (fun u => u.id)).Nodup ∧
  (db.calendars.map (fun c => c.id)).Nodup ∧
  (db.entries.map (fun e => e.id)).Nodup ∧
  (db.users.map (fun u => (u.authProvider, u.authUID))).Nodup ∧
  (∀ u ∈ db.users, u.id < db.nextUserId) ∧
  (∀ c ∈ db.calendars, c.id < db.nextCalendarId ∧ ∃ u ∈ db.users, u.id = c.userId) ∧
  (∀ e ∈ db.entries, e.id < db.nextEntryId ∧ (∃ u ∈ db.users, u.id = e.userId) ∧
    ∃ c ∈ db.calendars, c.id = e.calendarId)

instance (db : DB) : Decidable db.WF := by
  unfold DB.WF
  infer_instance

/-! Concrete fixtures used by closed counterexamples and witnesses. -/

/-- Fixture identity produced by the test verifier. -/
def authAlice : AuthResult :=
  { authProvider := "google", authUID := "uid-a", name := "Alice", iconURL := "icon-a" }

/-- Fixture environment: the verifier always resolves to Alice's identity,
the metadata fetcher always fails. -/
def envFetchFail : Env :=
  { verifyIDToken := fun _ => authAlice, fetch := fun _ => .error () }

/-- Fixture environment: the verifier always resolves to Alice's identity,
the metadata fetcher always succeeds. -/
def envFetchOk : Env :=
  { verifyIDToken := fun _ => authAlice,
    fetch := fun _ => .ok { title := "T", imageURL := "I" } }

/-- Alice's users row, matching `authAlice`. -/
def alice : UserRow :=
  { id := 1, name := "Alice", iconURL := "icon-a",
    authProvider := "google", authUID := "uid-a" }

/-- Bob's users row. -/
def bob : UserRow :=
  { id := 2, name := "Bob", iconURL := "icon-b",
    authProvider := "google", authUID := "uid-b" }

/-- A request context carrying one authorization value. -/
def ctxTok : Ctx := some ["tok"]

/-- Alice's calendar. -/
def calAlice : CalendarRow :=
  { id := 1, userId := 1, title := "Xmas", description := "D", year := 2023 }

/-- Base fixture database: Alice, Bob and Alice's calendar. -/
def dbBase : DB :=
  { users := [alice, bob], calendars := [calAlice], entries := [],
    nextUserId := 3, nextCalendarId := 2, nextEntryId := 1 }

/-- Alice's entry on her calendar. -/
def entryAlice : EntryRow :=
  { id := 10, userId := 1, calendarId := 1, day := 3, title := "TT",
    comment := "old-comment", url := "old-url", imageURL := "old-img" }

/-- Fixture database containing Alice's entry. -/
def dbEntry : DB :=
  { users := [alice, bob], calendars := [calAlice], entries := [entryAlice],
    nextUserId := 3, nextCalendarId := 2, nextEntryId := 11 }

/-- UpdateEntry request against Alice's entry with a nonempty url. -/
def reqUE : UpdateEntryRequest :=
  { entryId := 10, comment := "new-comment", url := "http://x" }

/-- Bob's calendar, id 2. -/
def calBob : CalendarRow :=
  { id := 2, userId := 2, title := "Games", description := "G", year := 2023 }

/-- Fixture database with two calendars and next entries id 2, so the
re-fetch of `CreateEntry` happens to hit calendar 2. -/
def dbTwoCals : DB :=
  { users := [alice, bob], calendars := [calAlice, calBob], entries := [],
    nextUserId := 3, nextCalendarId := 3, nextEntryId := 2 }

/-- Fixture database whose next entries id (2) matches no calendars row:
the re-fetch of `CreateEntry`, which queries the calendars table, finds
nothing. -/
def dbNoCal2 : DB :=
  { users := [alice, bob], calendars := [calAlice], entries := [],
    nextUserId := 3, nextCalendarId := 2, nextEntryId := 2 }

/-- Fixture identity for Bob. -/
def authBob : AuthResult :=
  { authProvider := "google", authUID := "uid-b", name := "Bob", iconURL := "icon-b" }

/-- Fixture environment resolving every token to Bob's identity. -/
def envBob : Env :=
  { verifyIDToken := fun _ => authBob, fetch := fun _ => .error () }

/-- Fixture database with two calendars of year 2023 and one entry. -/
def dbFull : DB :=
  { users := [alice, bob], calendars := [calAlice, calBob], entries := [entryAlice],
    nextUserId := 3, nextCalendarId := 3, nextEntryId := 11 }

/-! Helper lemmas about `find?` and `countP` under uniqueness. -/

/-- When `p` holds for `a ∈ l` and at most one element of `l` satisfies
`p`, `find?` returns `a`. -/
theorem find?_eq_some_of_unique {α : Type} (p : α → Bool) (l : List α) (a : α)
    (ha : a ∈ l) (hpa : p a = true)
    (huniq : ∀ x ∈ l, ∀ y ∈ l, p x = true → p y = true → x = y) :
    l.find? p = some a := by
  induction l with
  | nil => cases ha
  | cons b t ih =>
    by_cases hb : p b = true
    · have hba : b = a := huniq b (List.mem_cons_self b t) a ha hb hpa
      rw [List.find?_cons_of_pos t hb, hba]
    · have hab : a ≠ b := fun h => hb (h ▸ hpa)
      have ha' : a ∈ t := by
        rcases List.mem_cons.mp ha with h | h
        · exact absurd h hab
        · exact h
      have huniq' : ∀ x ∈ t, ∀ y ∈ t, p x = true → p y = true → x = y :=
        fun x hx y hy hpx hpy =>
          huniq x (List.mem_cons_of_mem _ hx) y (List.mem_cons_of_mem _ hy) hpx hpy
      rw [List.find?_cons_of_neg t hb]
      exact ih ha' huniq'

/-- Specialisation of `find?_eq_some_of_unique` to a predicate comparing an
injective key (unique in `l.map key`) against a fixed value: this is how a
`where key = ?` lookup behaves on a table whose key column is unique. -/
theorem find?_key_eq_some {α β : Type} [BEq β] [LawfulBEq β] (key : α → β)
    (v : β) (l : List α) (hnd : (l.map key).Nodup) (a : α) (ha : a ∈ l)
    (hv : key a = v) :
    l.find? (fun x => key x == v) = some a := by
  apply find?_eq_some_of_unique _ _ a ha
  · simp [hv]
  · intro x hx y hy hpx hpy
    have hx' : key x = v := by simpa using hpx
    have hy' : key y = v := by simpa using hpy
    exact List.inj_on_of_nodup_map hnd hx hy (hx'.trans hy'.symm)

/-- On a table whose key column is unique, the count of rows matching a key
held by a present row is exactly one. -/
theorem countP_key_eq_one {α β : Type} [BEq β] [LawfulBEq β] (key : α → β)
    (v : β) (l : List α) (hnd : (l.map key).Nodup) (a : α) (ha : a ∈ l)
    (hv : key a = v) :
    l.countP (fun x => key x == v) = 1 := by
  induction l with
  | nil => cases ha
  | cons b t ih =>
    have hnd' : (t.map key).Nodup := (List.nodup_cons.mp hnd).2
    have hnotin : key b ∉ t.map key := (List.nodup_cons.mp hnd).1
    by_cases hb : key b = v
    · have htzero : t.countP (fun x => key x == v) = 0 := by
        rw [List.countP_eq_zero]
        intro x hx
        simp only [beq_iff_eq]
        intro hxv
        exact hnotin (hb ▸ hxv ▸ List.mem_map_of_mem key hx)
      rw [List.countP_cons_of_pos _ _ (by simpa using hb), htzero]
    · have hab : a ≠ b := fun h => hb (h ▸ hv)
      have ha' : a ∈ t := by
        rcases List.mem_cons.mp ha with h | h
        · exact absurd h hab
        · exact h
      rw [List.countP_cons_of_neg _ _ (by simpa using hb)]
      exact ih hnd' ha'

/-! Claim theorems. -/

/-- C2 (code bug): when `getCurrentUser` fails — no metadata, no
authorization value, or no matching local user — `DeleteCalendar` does not
return the Unauthenticated-style error the spec describes: the source never
checks that error (its `err` is overwritten by the `Prepare` error), so the
handler dereferences the nil `currentUser` and panics.  No calendar row is
deleted: the database is returned untouched. -/
theorem deleteCalendar_unauthenticated_panics (s : Env) (ctx : Ctx) (db : DB)
    (req : DeleteCalendarRequest) (e : Err)
    (hauth : getCurrentUser s ctx db = .error e) :
    deleteCalendar s ctx db req = (.nilPanic, db) := by
  unfold deleteCalendar
  rw [hauth]

/-- Witness for C2: a request without metadata panics and deletes nothing. -/
theorem deleteCalendar_unauthenticated_panics_witness :
    getCurrentUser envFetchFail none dbBase = .error .notFoundMetadata ∧
    deleteCalendar envFetchFail none dbBase ⟨1⟩ = (.nilPanic, dbBase) :=
  ⟨rfl, deleteCalendar_unauthenticated_panics envFetchFail none dbBase ⟨1⟩
    .notFoundMetadata rfl⟩

/-- C10 (code bug): `ListEntries` registers `defer rows.Close()` before
checking the query error, so on the database-error path the deferred close
runs on the nil rows handle and the evaluation panics instead of returning
the error. -/
theorem listEntries_query_error_nilPanic (db : DB) (req : ListEntriesRequest) :
    listEntries db req true = .nilPanic := rfl

/-- C4: for an authenticated caller and an existing calendar, a day outside
[1, 25] makes `CreateEntry` fail with the invalid-day error and leaves the
database (in particular the entries table) unchanged. -/
theorem createEntry_invalid_day (s : Env) (ctx : Ctx) (db : DB)
    (req : CreateEntryRequest) (cu : UserRow)
    (hauth : getCurrentUser s ctx db = .ok cu)
    (hcal : ∃ c ∈ db.calendars, c.id = req.calendarId)
    (hday : req.day < 1 ∨ req.day > 25) :
    createEntry s ctx db req = (.error (.invalidDay req.day), db) := by
  obtain ⟨c, hc, hcid⟩ := hcal
  unfold createEntry
  rw [hauth]
  rcases hf : db.calendars.find? (fun x => x.id == req.calendarId) with _ | c'
  · rw [List.find?_eq_none] at hf
    exact absurd (by simp [hcid]) (hf c hc)
  · have hd : (decide (req.day < 1) || decide (req.day > 25)) = true := by
      rcases hday with h | h <;> simp [h]
    rw [hf]
    simp [hd]

/-- Witness for C4: day 26 on an existing calendar is rejected without a
write. -/
theorem createEntry_invalid_day_witness :
    getCurrentUser envFetchFail ctxTok dbBase = .ok alice ∧
    (∃ c ∈ dbBase.calendars, c.id = (1 : Int)) ∧
    ((26 : Int) < 1 ∨ (26 : Int) > 25) ∧
    createEntry envFetchFail ctxTok dbBase ⟨1, 26⟩ = (.error (.invalidDay 26), dbBase) :=
  ⟨rfl, ⟨calAlice, by decide, rfl⟩, by decide,
    createEntry_invalid_day envFetchFail ctxTok dbBase ⟨1, 26⟩ alice rfl
      ⟨calAlice, by decide, rfl⟩ (by decide)⟩

/-- C1 counterexample: Alice owns entry 10 (comment "old-comment"), calls
`UpdateEntry` with a new comment and a nonempty url whose metadata fetch
fails.  The operation does return an error, but the entry is NOT unchanged:
its comment and url were already updated by the first UPDATE, so the
"no partial update" part of the claim is false. -/
theorem updateEntry_fetch_fail_not_unchanged :
    (updateEntry envFetchFail ctxTok dbEntry reqUE).1 = .error .fetchFailed ∧
    (updateEntry envFetchFail ctxTok dbEntry reqUE).2 ≠ dbEntry ∧
    (updateEntry envFetchFail ctxTok dbEntry reqUE).2.entries.map (fun e => e.comment) =
      ["new-comment"] ∧
    dbEntry.entries.map (fun e => e.comment) = ["old-comment"] :=
  ⟨rfl, by decide, rfl, rfl⟩

/-- C1 amended: under the claim's hypotheses (owner caller, nonempty url,
failing fetch) the operation returns an error and the entry's title and
image_url are unchanged, but its comment and url have already been set to
the request values — the first owner-scoped UPDATE is not rolled back.
Rows with other ids, the users table and the calendars table are
untouched. -/
theorem updateEntry_fetch_fail_partial (s : Env) (ctx : Ctx) (db : DB)
    (req : UpdateEntryRequest) (cu : UserRow) (e0 : EntryRow)
    (hauth : getCurrentUser s ctx db = .ok cu)
    (he : e0 ∈ db.entries) (heid : e0.id = req.entryId) (hown : e0.userId = cu.id)
    (hurl : req.url ≠ "") (hfetch : s.fetch req.url = .error ()) :
    (updateEntry s ctx db req).1 = .error .fetchFailed ∧
    { e0 with comment := req.comment, url := req.url } ∈
      (updateEntry s ctx db req).2.entries ∧
    (updateEntry s ctx db req).2.users = db.users ∧
    (updateEntry s ctx db req).2.calendars = db.calendars ∧
    ∀ x ∈ db.entries, x.id ≠ req.entryId → x ∈ (updateEntry s ctx db req).2.entries := by
  have hb : (req.url != "") = true := by simp [hurl]
  unfold updateEntry
  rw [hauth]
  simp only [hb, if_true]
  rw [hfetch]
  refine ⟨rfl, ?_, rfl, rfl, ?_⟩
  · have hrow : updateEntryCommentRow req cu.id e0 =
        { e0 with comment := req.comment, url := req.url } := by
      unfold updateEntryCommentRow
      simp [heid, hown]
    exact hrow ▸ List.mem_map_of_mem _ he
  · intro x hx hne
    have hrow : updateEntryCommentRow req cu.id x = x := by
      unfold updateEntryCommentRow
      simp [hne]
    exact hrow ▸ List.mem_map_of_mem _ hx

/-- Witness for the amended C1 theorem on the counterexample fixtures. -/
theorem updateEntry_fetch_fail_partial_witness :
    getCurrentUser envFetchFail ctxTok dbEntry = .ok alice ∧
    entryAlice ∈ dbEntry.entries ∧
    entryAlice.id = reqUE.entryId ∧
    entryAlice.userId = alice.id ∧
    reqUE.url ≠ "" ∧
    envFetchFail.fetch reqUE.url = .error () ∧
    ((updateEntry envFetchFail ctxTok dbEntry reqUE).1 = .error .fetchFailed ∧
      { entryAlice with comment := reqUE.comment, url := reqUE.url } ∈
        (updateEntry envFetchFail ctxTok dbEntry reqUE).2.entries ∧
      (updateEntry envFetchFail ctxTok dbEntry reqUE).2.users = dbEntry.users ∧
      (updateEntry envFetchFail ctxTok dbEntry reqUE).2.calendars = dbEntry.calendars ∧
      ∀ x ∈ dbEntry.entries, x.id ≠ reqUE.entryId →
        x ∈ (updateEntry envFetchFail ctxTok dbEntry reqUE).2.entries) :=
  ⟨rfl, by decide, rfl, rfl, by decide, rfl,
    updateEntry_fetch_fail_partial envFetchFail ctxTok dbEntry reqUE alice entryAlice
      rfl (by decide) rfl rfl (by decide) rfl⟩

/-- C3 counterexample: Alice is authenticated, calendar 1 exists, day 5 is
valid, and the entries row IS inserted — yet the call returns an error
instead of succeeding with the new entry's id, because the re-fetch
`select id from calendars where id = lastID` finds no calendars row with
id 2. -/
theorem createEntry_refetch_wrong_table :
    getCurrentUser envFetchFail ctxTok dbNoCal2 = .ok alice ∧
    calAlice ∈ dbNoCal2.calendars ∧ calAlice.id = (1 : Int) ∧
    (createEntry envFetchFail ctxTok dbNoCal2 ⟨1, 5⟩).1 = .error .errNoRows ∧
    (createEntry envFetchFail ctxTok dbNoCal2 ⟨1, 5⟩).2.entries =
      [newEntryRow 2 1 ⟨1, 5⟩] :=
  ⟨rfl, by decide, rfl, rfl, rfl⟩

/-- C3 amended: for an authenticated caller, an existing calendar and a day
in [1, 25], `CreateEntry` inserts the new entries row, and it succeeds with
a response whose id equals the new entry's id exactly when some calendars
row carries that id (the re-fetch queries the calendars table with the
entry's id); otherwise it returns a not-found error although the row was
inserted. -/
theorem createEntry_ok_of_refetch_hit (s : Env) (ctx : Ctx) (db : DB)
    (req : CreateEntryRequest) (cu : UserRow)
    (hauth : getCurrentUser s ctx db = .ok cu)
    (hcal : ∃ c ∈ db.calendars, c.id = req.calendarId)
    (hday1 : 1 ≤ req.day) (hday2 : req.day ≤ 25)
    (hre : ∃ c ∈ db.calendars, c.id = db.nextEntryId) :
    (createEntry s ctx db req).1 =
      .ok { id := db.nextEntryId, day := 0, title := "", comment := "", url := "",
            imageURL := "", calendar := none, owner := none } ∧
    (createEntry s ctx db req).2.entries =
      db.entries ++ [newEntryRow db.nextEntryId cu.id req] ∧
    (newEntryRow db.nextEntryId cu.id req).id = db.nextEntryId := by
  obtain ⟨c, hc, hcid⟩ := hcal
  obtain ⟨c2, hc2, hcid2⟩ := hre
  unfold createEntry
  rw [hauth]
  rcases hf : db.calendars.find? (fun x => x.id == req.calendarId) with _ | c'
  · rw [List.find?_eq_none] at hf
    exact absurd (by simp [hcid]) (hf c hc)
  · have hd : (decide (req.day < 1) || decide (req.day > 25)) = false := by
      simp only [Bool.or_eq_false_iff, decide_eq_false_iff_not, not_lt]
      exact ⟨hday1, by omega⟩
    rw [hf]
    simp only [hd, Bool.false_eq_true, if_false]
    rcases hf2 : db.calendars.find? (fun x => x.id == db.nextEntryId) with _ | c2'
    · rw [List.find?_eq_none] at hf2
      exact absurd (by simp [hcid2]) (hf2 c2 hc2)
    · have hid : c2'.id = db.nextEntryId := by
        have := List.find?_some hf2
        simpa using this
      simp [hf2, hid, newEntryRow]

/-- Witness for the amended C3 theorem: with calendars 1 and 2 present and
next entries id 2, the call succeeds and echoes the inserted entry's id. -/
theorem createEntry_ok_of_refetch_hit_witness :
    getCurrentUser envFetchFail ctxTok dbTwoCals = .ok alice ∧
    (∃ c ∈ dbTwoCals.calendars, c.id = (1 : Int)) ∧
    ((1 : Int) ≤ 5 ∧ (5 : Int) ≤ 25) ∧
    (∃ c ∈ dbTwoCals.calendars, c.id = dbTwoCals.nextEntryId) ∧
    ((createEntry envFetchFail ctxTok dbTwoCals ⟨1, 5⟩).1 =
        .ok { id := dbTwoCals.nextEntryId, day := 0, title := "", comment := "",
              url := "", imageURL := "", calendar := none, owner := none } ∧
      (createEntry envFetchFail ctxTok dbTwoCals ⟨1, 5⟩).2.entries =
        dbTwoCals.entries ++ [newEntryRow dbTwoCals.nextEntryId alice.id ⟨1, 5⟩] ∧
      (newEntryRow dbTwoCals.nextEntryId alice.id ⟨1, 5⟩).id = dbTwoCals.nextEntryId) :=
  ⟨rfl, ⟨calAlice, by decide, rfl⟩, ⟨by decide, by decide⟩,
    ⟨calBob, by decide, rfl⟩,
    createEntry_ok_of_refetch_hit envFetchFail ctxTok dbTwoCals ⟨1, 5⟩ alice rfl
      ⟨calAlice, by decide, rfl⟩ (by decide) (by decide) ⟨calBob, by decide, rfl⟩⟩

/-- C7: an authenticated non-owner's `UpdateCalendar` updates zero rows —
the database is unchanged — and still succeeds, returning the calendar's
unchanged persisted title, description and year instead of an
authorization error. -/
theorem updateCalendar_non_owner (s : Env) (ctx : Ctx) (db : DB)
    (req : UpdateCalendarRequest) (cu : UserRow) (c : CalendarRow)
    (hwf : db.WF)
    (hauth : getCurrentUser s ctx db = .ok cu)
    (hc : c ∈ db.calendars) (hcid : c.id = req.calendarId)
    (hne : c.userId ≠ cu.id) :
    (updateCalendar s ctx db req).1 =
      .ok { id := c.id, title := c.title, description := c.description,
            year := c.year, entryCount := 0, owner := none } ∧
    (updateCalendar s ctx db req).2 = db := by
  obtain ⟨hndU, hndC, hndE, hndP, hU, hC, hE⟩ := hwf
  have hrows : ∀ a ∈ db.calendars, updateCalendarRow req cu.id a = a := by
    intro a ha
    unfold updateCalendarRow
    by_cases hid : a.id = req.calendarId
    · have hac : a = c := List.inj_on_of_nodup_map hndC ha hc (by rw [hid, hcid])
      have hau : a.userId ≠ cu.id := hac ▸ hne
      simp [hau]
    · simp [hid]
  have hmapid : db.calendars.map (updateCalendarRow req cu.id) = db.calendars := by
    rw [List.map_congr_left hrows]
    simp
  have hfind : db.calendars.find? (fun x => x.id == req.calendarId) = some c :=
    find?_key_eq_some (fun x => x.id) req.calendarId db.calendars hndC c hc hcid
  unfold updateCalendar
  rw [hauth]
  simp only [hmapid, hfind]
  exact ⟨trivial, trivial⟩

/-- Witness for C7: Bob updates Alice's calendar; nothing changes and the
unchanged row is returned. -/
theorem updateCalendar_non_owner_witness :
    dbBase.WF ∧
    getCurrentUser envBob ctxTok dbBase = .ok bob ∧
    calAlice ∈ dbBase.calendars ∧ calAlice.id = (1 : Int) ∧
    calAlice.userId ≠ bob.id ∧
    ((updateCalendar envBob ctxTok dbBase ⟨1, "hack", "h"⟩).1 =
        .ok { id := calAlice.id, title := calAlice.title,
              description := calAlice.description, year := calAlice.year,
              entryCount := 0, owner := none } ∧
      (updateCalendar envBob ctxTok dbBase ⟨1, "hack", "h"⟩).2 = dbBase) :=
  ⟨by decide, rfl, by decide, rfl, by decide,
    updateCalendar_non_owner envBob ctxTok dbBase ⟨1, "hack", "h"⟩ bob calAlice
      (by decide) rfl (by decide) rfl (by decide)⟩

/-- The icon-only UPDATE of `SignIn` keeps the id column. -/
theorem signInIconRow_id (uid : Int) (icon : String) (v : UserRow) :
    (signInIconRow uid icon v).id = v.id := by
  unfold signInIconRow
  split <;> rfl

/-- The icon-only UPDATE of `SignIn` keeps the name column. -/
theorem signInIconRow_name (uid : Int) (icon : String) (v : UserRow) :
    (signInIconRow uid icon v).name = v.name := by
  unfold signInIconRow
  split <;> rfl

/-- The icon-only UPDATE of `SignIn` keeps the auth_provider column. -/
theorem signInIconRow_authProvider (uid : Int) (icon : String) (v : UserRow) :
    (signInIconRow uid icon v).authProvider = v.authProvider := by
  unfold signInIconRow
  split <;> rfl

/-- The icon-only UPDATE of `SignIn` keeps the auth_uid column. -/
theorem signInIconRow_authUID (uid : Int) (icon : String) (v : UserRow) :
    (signInIconRow uid icon v).authUID = v.authUID := by
  unfold signInIconRow
  split <;> rfl

/-- Two icon-only UPDATEs against the same id collapse to the second. -/
theorem signInIconRow_comp (uid : Int) (i1 i2 : String) (x : UserRow) :
    signInIconRow uid i2 (signInIconRow uid i1 x) = signInIconRow uid i2 x := by
  unfold signInIconRow
  by_cases h : x.id = uid <;> simp [h]

/-- The icon-only UPDATE against an id the row does not carry is the
identity. -/
theorem signInIconRow_other (uid : Int) (icon : String) (v : UserRow)
    (h : v.id ≠ uid) : signInIconRow uid icon v = v := by
  unfold signInIconRow
  simp [h]

/-- Exactly-one count for a predicate with at most one satisfying element
in a duplicate-free list. -/
theorem countP_eq_one_of_unique {α : Type} (p : α → Bool) (l : List α) (a : α)
    (ha : a ∈ l) (hpa : p a = true)
    (huniq : ∀ x ∈ l, ∀ y ∈ l, p x = true → p y = true → x = y)
    (hnd : l.Nodup) : l.countP p = 1 := by
  induction l with
  | nil => cases ha
  | cons b t ih =>
    obtain ⟨hbt, hndt⟩ := List.nodup_cons.mp hnd
    by_cases hb : p b = true
    · have hba : b = a := huniq b (List.mem_cons_self b t) a ha hb hpa
      have htzero : t.countP p = 0 := by
        rw [List.countP_eq_zero]
        intro x hx hpx
        exact hbt (huniq x (List.mem_cons_of_mem _ hx) b (List.mem_cons_self b t)
          hpx hb ▸ hx)
      rw [List.countP_cons_of_pos _ _ hb, htzero]
    · have hab : a ≠ b := fun h => hb (h ▸ hpa)
      have ha' : a ∈ t := by
        rcases List.mem_cons.mp ha with h | h
        · exact absurd h hab
        · exact h
      rw [List.countP_cons_of_neg _ _ hb]
      exact ih ha' (fun x hx y hy hpx hpy =>
        huniq x (List.mem_cons_of_mem _ hx) y (List.mem_cons_of_mem _ hy) hpx hpy) hndt

/-- Users table after a `SignIn` whose identity matches no stored row: the
verifier's data is appended as a new row. -/
theorem signIn_users_absent (s : Env) (db : DB) (t : String)
    (hfa : findUserByAuth db (s.verifyIDToken t).authProvider
      (s.verifyIDToken t).authUID = none) :
    (signIn s db { jwt := t }).2.users =
      db.users ++ [newUserRow db.nextUserId (s.verifyIDToken t)] := by
  unfold signIn
  simp only [hfa]

/-- Users table after a `SignIn` whose identity matches stored row `u0`:
only that row's icon_url is rewritten. -/
theorem signIn_users_found (s : Env) (db : DB) (t : String) (u0 : UserRow)
    (hfa : findUserByAuth db (s.verifyIDToken t).authProvider
      (s.verifyIDToken t).authUID = some u0) :
    (signIn s db { jwt := t }).2.users =
      db.users.map (signInIconRow u0.id (s.verifyIDToken t).iconURL) := by
  unfold signIn
  simp only [hfa]

/-- Characterisation of the users table after two `SignIn` calls whose
verified identities share the `(auth_provider, auth_uid)` pair: when no row
carried the pair, the first call's inserted row remains with its icon
rewritten by the second call; when row `u0` carried it, only that row's
icon is rewritten. -/
theorem signIn_twice_users (s : Env) (db : DB) (t1 t2 : String) (hwf : db.WF)
    (hprov : (s.verifyIDToken t1).authProvider = (s.verifyIDToken t2).authProvider)
    (huid : (s.verifyIDToken t1).authUID = (s.verifyIDToken t2).authUID) :
    (signIn s (signIn s db { jwt := t1 }).2 { jwt := t2 }).2.users =
      match findUserByAuth db (s.verifyIDToken t2).authProvider
          (s.verifyIDToken t2).authUID with
      | none => db.users ++
          [{ newUserRow db.nextUserId (s.verifyIDToken t1) with
              iconURL := (s.verifyIDToken t2).iconURL }]
      | some u0 => db.users.map (signInIconRow u0.id (s.verifyIDToken t2).iconURL) := by
  obtain ⟨hndU, hndC, hndE, hndP, hU, hC, hE⟩ := hwf
  rcases hfa : findUserByAuth db (s.verifyIDToken t2).authProvider
      (s.verifyIDToken t2).authUID with _ | u0
  · -- no user row with the pair: first call inserts, second updates the icon
    have hfa1 : findUserByAuth db (s.verifyIDToken t1).authProvider
        (s.verifyIDToken t1).authUID = none := by
      rw [hprov, huid]
      exact hfa
    have h1 := signIn_users_absent s db t1 hfa1
    have hnewpair : ((newUserRow db.nextUserId (s.verifyIDToken t1)).authProvider ==
        (s.verifyIDToken t2).authProvider &&
        (newUserRow db.nextUserId (s.verifyIDToken t1)).authUID ==
          (s.verifyIDToken t2).authUID) = true := by
      simp [newUserRow, hprov, huid]
    have hfind2 : findUserByAuth (signIn s db { jwt := t1 }).2
        (s.verifyIDToken t2).authProvider (s.verifyIDToken t2).authUID =
        some (newUserRow db.nextUserId (s.verifyIDToken t1)) := by
      unfold findUserByAuth at hfa ⊢
      rw [h1, List.find?_append, hfa, Option.none_or]
      exact List.find?_cons_of_pos _ hnewpair
    have h2 := signIn_users_found s (signIn s db { jwt := t1 }).2 t2 _ hfind2
    rw [h2, h1, List.map_append]
    have hleft : db.users.map (signInIconRow
        (newUserRow db.nextUserId (s.verifyIDToken t1)).id
        (s.verifyIDToken t2).iconURL) = db.users := by
      have hid : ∀ u ∈ db.users, signInIconRow
          (newUserRow db.nextUserId (s.verifyIDToken t1)).id
          (s.verifyIDToken t2).iconURL u = u := by
        intro u hu
        apply signInIconRow_other
        have := hU u hu
        show u.id ≠ db.nextUserId
        omega
      rw [List.map_congr_left hid]
      simp
    rw [hleft]
    congr 1
    show [signInIconRow db.nextUserId (s.verifyIDToken t2).iconURL
      (newUserRow db.nextUserId (s.verifyIDToken t1))] = _
    unfold signInIconRow newUserRow
    simp
  · -- a row u0 carries the pair: both calls update only its icon
    have hfa' : db.users.find? (fun u =>
        u.authProvider == (s.verifyIDToken t2).authProvider &&
        u.authUID == (s.verifyIDToken t2).authUID) = some u0 := hfa
    have hu0mem : u0 ∈ db.users := List.mem_of_find?_eq_some hfa'
    have hu0p : (u0.authProvider == (s.verifyIDToken t2).authProvider &&
        u0.authUID == (s.verifyIDToken t2).authUID) = true := by
      have := List.find?_some hfa'
      simpa using this
    have hfa1 : findUserByAuth db (s.verifyIDToken t1).authProvider
        (s.verifyIDToken t1).authUID = some u0 := by
      rw [hprov, huid]
      exact hfa
    have h1 := signIn_users_found s db t1 u0 hfa1
    have hinjP := List.inj_on_of_nodup_map hndP
    have hfind2 : findUserByAuth (signIn s db { jwt := t1 }).2
        (s.verifyIDToken t2).authProvider (s.verifyIDToken t2).authUID =
        some (signInIconRow u0.id (s.verifyIDToken t1).iconURL u0) := by
      unfold findUserByAuth
      rw [h1]
      apply find?_eq_some_of_unique
      · exact List.mem_map_of_mem _ hu0mem
      · simpa [signInIconRow_authProvider, signInIconRow_authUID] using hu0p
      · intro x hx y hy hpx hpy
        obtain ⟨x0, hx0, hx0e⟩ := List.mem_map.mp hx
        obtain ⟨y0, hy0, hy0e⟩ := List.mem_map.mp hy
        subst hx0e
        subst hy0e
        simp only [signInIconRow_authProvider, signInIconRow_authUID,
          Bool.and_eq_true, beq_iff_eq] at hpx hpy
        rw [hinjP hx0 hy0 (by
          rw [Prod.mk.injEq]
          exact ⟨hpx.1.trans hpy.1.symm, hpx.2.trans hpy.2.symm⟩)]
    have h2 := signIn_users_found s (signIn s db { jwt := t1 }).2 t2 _ hfind2
    rw [h2, h1, List.map_map, signInIconRow_id]
    apply List.map_congr_left
    intro x hx
    exact signInIconRow_comp u0.id (s.verifyIDToken t1).iconURL
      (s.verifyIDToken t2).iconURL x

/-- C5: on a well-formed database, running `SignIn` twice with tokens that
verify to the same `(authProvider, authUID)` identity leaves exactly one
users row with that pair; that row's icon_url is the verifier's IconURL of
the latest call; and every pre-existing user keeps its id, name,
auth_provider and auth_uid. -/
theorem signIn_idempotent (s : Env) (db : DB) (t1 t2 : String) (hwf : db.WF)
    (hprov : (s.verifyIDToken t1).authProvider = (s.verifyIDToken t2).authProvider)
    (huid : (s.verifyIDToken t1).authUID = (s.verifyIDToken t2).authUID) :
    ((signIn s (signIn s db { jwt := t1 }).2 { jwt := t2 }).2.users.countP
        (fun u => u.authProvider == (s.verifyIDToken t2).authProvider &&
          u.authUID == (s.verifyIDToken t2).authUID)) = 1 ∧
    (∀ u ∈ (signIn s (signIn s db { jwt := t1 }).2 { jwt := t2 }).2.users,
        u.authProvider = (s.verifyIDToken t2).authProvider →
        u.authUID = (s.verifyIDToken t2).authUID →
        u.iconURL = (s.verifyIDToken t2).iconURL) ∧
    (∀ u ∈ db.users,
        ∃ v ∈ (signIn s (signIn s db { jwt := t1 }).2 { jwt := t2 }).2.users,
        v.id = u.id ∧ v.name = u.name ∧ v.authProvider = u.authProvider ∧
        v.authUID = u.authUID) := by
  have hch := signIn_twice_users s db t1 t2 hwf hprov huid
  obtain ⟨hndU, hndC, hndE, hndP, hU, hC, hE⟩ := hwf
  rcases hfa : findUserByAuth db (s.verifyIDToken t2).authProvider
      (s.verifyIDToken t2).authUID with _ | u0
  · rw [hfa] at hch
    have hfa' : db.users.find? (fun u =>
        u.authProvider == (s.verifyIDToken t2).authProvider &&
        u.authUID == (s.verifyIDToken t2).authUID) = none := hfa
    have hnone := List.find?_eq_none.mp hfa'
    refine ⟨?_, ?_, ?_⟩
    · rw [hch, List.countP_append]
      have h0 : db.users.countP (fun u =>
          u.authProvider == (s.verifyIDToken t2).authProvider &&
          u.authUID == (s.verifyIDToken t2).authUID) = 0 := by
        rw [List.countP_eq_zero]
        exact hnone
      rw [h0]
      simp [List.countP_cons, newUserRow, hprov, huid]
    · intro u hu hp hq
      rw [hch] at hu
      rcases List.mem_append.mp hu with h | h
      · exact absurd (by simp [hp, hq]) (hnone u h)
      · have : u = { newUserRow db.nextUserId (s.verifyIDToken t1) with
            iconURL := (s.verifyIDToken t2).iconURL } := by simpa using h
        rw [this]
    · intro u hu
      refine ⟨u, ?_, rfl, rfl, rfl, rfl⟩
      rw [hch]
      exact List.mem_append_left _ hu
  · rw [hfa] at hch
    have hfa' : db.users.find? (fun u =>
        u.authProvider == (s.verifyIDToken t2).authProvider &&
        u.authUID == (s.verifyIDToken t2).authUID) = some u0 := hfa
    have hu0mem : u0 ∈ db.users := List.mem_of_find?_eq_some hfa'
    have hu0p : (u0.authProvider == (s.verifyIDToken t2).authProvider &&
        u0.authUID == (s.verifyIDToken t2).authUID) = true := by
      have := List.find?_some hfa'
      simpa using this
    have huniq : ∀ x ∈ db.users, ∀ y ∈ db.users,
        (x.authProvider == (s.verifyIDToken t2).authProvider &&
          x.authUID == (s.verifyIDToken t2).authUID) = true →
        (y.authProvider == (s.verifyIDToken t2).authProvider &&
          y.authUID == (s.verifyIDToken t2).authUID) = true → x = y := by
      intro x hx y hy hpx hpy
      simp only [Bool.and_eq_true, beq_iff_eq] at hpx hpy
      exact List.inj_on_of_nodup_map hndP hx hy (by
        rw [Prod.mk.injEq]
        exact ⟨hpx.1.trans hpy.1.symm, hpx.2.trans hpy.2.symm⟩)
    refine ⟨?_, ?_, ?_⟩
    · rw [hch, List.countP_map]
      have hcong : db.users.countP ((fun u =>
          u.authProvider == (s.verifyIDToken t2).authProvider &&
          u.authUID == (s.verifyIDToken t2).authUID) ∘
            signInIconRow u0.id (s.verifyIDToken t2).iconURL) =
          db.users.countP (fun u =>
            u.authProvider == (s.verifyIDToken t2).authProvider &&
            u.authUID == (s.verifyIDToken t2).authUID) := by
        apply List.countP_congr
        intro x hx
        simp [Function.comp, signInIconRow_authProvider, signInIconRow_authUID]
      rw [hcong]
      exact countP_eq_one_of_unique _ _ u0 hu0mem hu0p huniq (List.Nodup.of_map _ hndU)
    · intro u hu hp hq
      rw [hch] at hu
      obtain ⟨x, hx, hxe⟩ := List.mem_map.mp hu
      have hxp : (x.authProvider == (s.verifyIDToken t2).authProvider &&
          x.authUID == (s.verifyIDToken t2).authUID) = true := by
        have hp' : x.authProvider = (s.verifyIDToken t2).authProvider := by
          rw [← signInIconRow_authProvider u0.id (s.verifyIDToken t2).iconURL x, hxe]
          exact hp
        have hq' : x.authUID = (s.verifyIDToken t2).authUID := by
          rw [← signInIconRow_authUID u0.id (s.verifyIDToken t2).iconURL x, hxe]
          exact hq
        simp [hp', hq']
      have hxu0 : x = u0 := huniq x hx u0 hu0mem hxp hu0p
      rw [← hxe, hxu0]
      unfold signInIconRow
      simp
    · intro u hu
      refine ⟨signInIconRow u0.id (s.verifyIDToken t2).iconURL u, ?_, ?_, ?_, ?_, ?_⟩
      · rw [hch]
        exact List.mem_map_of_mem _ hu
      · exact signInIconRow_id _ _ _
      · exact signInIconRow_name _ _ _
      · exact signInIconRow_authProvider _ _ _
      · exact signInIconRow_authUID _ _ _

/-- Witness for C5: two sign-ins against the base fixture database with a
verifier that always yields Alice's identity. -/
theorem signIn_idempotent_witness :
    dbBase.WF ∧
    (envFetchFail.verifyIDToken "x").authProvider =
      (envFetchFail.verifyIDToken "y").authProvider ∧
    (envFetchFail.verifyIDToken "x").authUID =
      (envFetchFail.verifyIDToken "y").authUID ∧
    (((signIn envFetchFail (signIn envFetchFail dbBase { jwt := "x" }).2
          { jwt := "y" }).2.users.countP
        (fun u => u.authProvider == (envFetchFail.verifyIDToken "y").authProvider &&
          u.authUID == (envFetchFail.verifyIDToken "y").authUID)) = 1 ∧
      (∀ u ∈ (signIn envFetchFail (signIn envFetchFail dbBase { jwt := "x" }).2
          { jwt := "y" }).2.users,
          u.authProvider = (envFetchFail.verifyIDToken "y").authProvider →
          u.authUID = (envFetchFail.verifyIDToken "y").authUID →
          u.iconURL = (envFetchFail.verifyIDToken "y").iconURL) ∧
      (∀ u ∈ dbBase.users,
          ∃ v ∈ (signIn envFetchFail (signIn envFetchFail dbBase { jwt := "x" }).2
            { jwt := "y" }).2.users,
          v.id = u.id ∧ v.name = u.name ∧ v.authProvider = u.authProvider ∧
          v.authUID = u.authUID)) :=
  ⟨by decide, rfl, rfl,
    signIn_idempotent envFetchFail dbBase "x" "y" (by decide) rfl rfl⟩

/-- C9: on a well-formed database, `GetCalendar` fails with the
NotFound-style `sql.ErrNoRows` when no calendar has the requested id; when
calendar `c` has it, the call returns `c`'s fields, every entry referencing
`c` (with its owner's snapshot), only such entries, ordered by ascending
day, and an entry count equal to the number of entries returned. -/
theorem getCalendar_spec (db : DB) (hwf : db.WF) (cid : Int) :
    ((∀ c ∈ db.calendars, c.id ≠ cid) →
      getCalendar db { calendarId := cid } = .error .errNoRows) ∧
    (∀ c ∈ db.calendars, c.id = cid →
      ∃ resp, getCalendar db { calendarId := cid } = .ok resp ∧
        resp.calendar.id = c.id ∧ resp.calendar.title = c.title ∧
        resp.calendar.description = c.description ∧
        resp.calendar.year = c.year ∧
        resp.calendar.entryCount = resp.entries.length ∧
        (∀ e ∈ db.entries, e.calendarId = cid →
          ∃ pe ∈ resp.entries, pe.id = e.id ∧ pe.day = e.day ∧
            pe.title = e.title ∧ pe.comment = e.comment ∧ pe.url = e.url ∧
            pe.imageURL = e.imageURL ∧
            ∃ u ∈ db.users, u.id = e.userId ∧
              pe.owner = some { id := u.id, name := u.name, iconURL := u.iconURL }) ∧
        (∀ pe ∈ resp.entries, ∃ e ∈ db.entries, e.calendarId = cid ∧ pe.id = e.id) ∧
        resp.entries.Pairwise (fun a b => a.day ≤ b.day)) := by
  obtain ⟨hndU, hndC, hndE, hndP, hU, hC, hE⟩ := hwf
  constructor
  · intro habs
    have hfind : db.calendars.find? (fun c => c.id == cid) = none := by
      rw [List.find?_eq_none]
      intro c hc
      simp [habs c hc]
    unfold getCalendar
    rw [hfind]
  · intro c hc hcid
    have hfind : db.calendars.find? (fun x => x.id == cid) = some c :=
      find?_key_eq_some (fun x => x.id) cid db.calendars hndC c hc hcid
    refine ⟨getCalendarOk db c, ?_, rfl, rfl, rfl, rfl, rfl, ?_, ?_, ?_⟩
    · unfold getCalendar getCalendarOk
      rw [hfind]
    · -- every entry of the calendar appears with its owner snapshot
      intro e he hecid
      obtain ⟨_, ⟨u, hu, huid⟩, _⟩ := hE e he
      have hjoin : db.users.find? (fun x => x.id == e.userId) = some u :=
        find?_key_eq_some (fun x => x.id) e.userId db.users hndU u hu huid
      have hrow : (e, u) ∈ (db.entries.filter
          (fun x => x.calendarId == c.id)).filterMap
            (fun x => (db.users.find? (fun y => y.id == x.userId)).map
              (fun y => (x, y))) := by
        rw [List.mem_filterMap]
        refine ⟨e, ?_, ?_⟩
        · rw [List.mem_filter]
          exact ⟨he, by simp [hecid, hcid]⟩
        · rw [hjoin]
          rfl
      refine ⟨_, List.mem_map_of_mem _ (List.mem_mergeSort.mpr hrow), rfl, rfl,
        rfl, rfl, rfl, rfl, u, hu, huid, rfl⟩
    · -- only entries of the calendar appear
      intro pe hpe
      unfold getCalendarOk findEntries at hpe
      obtain ⟨row, hrow, hrowe⟩ := List.mem_map.mp hpe
      have hrow' := List.mem_mergeSort.mp hrow
      obtain ⟨e, hef, hjoin⟩ := List.mem_filterMap.mp hrow'
      obtain ⟨he, hecid⟩ := List.mem_filter.mp hef
      rcases hu : db.users.find? (fun y => y.id == e.userId) with _ | u
      · rw [hu] at hjoin
        cases hjoin
      · rw [hu] at hjoin
        refine ⟨e, he, ?_, ?_⟩
        · have : (e.calendarId == c.id) = true := hecid
          have := beq_iff_eq.mp this
          rw [this, hcid]
        · cases hjoin
          rw [← hrowe]
    · -- ordered by ascending day
      unfold getCalendarOk findEntries
      rw [List.pairwise_map]
      have hsorted := @List.sorted_mergeSort _ entryDayAsc
        (fun a b c hab hbc => by
          unfold entryDayAsc at hab hbc ⊢
          simp only [decide_eq_true_eq] at hab hbc ⊢
          omega)
        (fun a b => by
          unfold entryDayAsc
          simp only [Bool.or_eq_true, decide_eq_true_eq]
          omega)
        ((db.entries.filter (fun x => x.calendarId == c.id)).filterMap
          (fun x => (db.users.find? (fun y => y.id == x.userId)).map
            (fun y => (x, y))))
      exact hsorted.imp (fun h => by
        unfold entryDayAsc at h
        simpa using h)

/-- Witness for C9 on the fixture database with one entry. -/
theorem getCalendar_spec_witness :
    dbEntry.WF ∧
    (((∀ c ∈ dbEntry.calendars, c.id ≠ (1 : Int)) →
        getCalendar dbEntry { calendarId := 1 } = .error .errNoRows) ∧
      (∀ c ∈ dbEntry.calendars, c.id = (1 : Int) →
        ∃ resp, getCalendar dbEntry { calendarId := 1 } = .ok resp ∧
          resp.calendar.id = c.id ∧ resp.calendar.title = c.title ∧
          resp.calendar.description = c.description ∧
          resp.calendar.year = c.year ∧
          resp.calendar.entryCount = resp.entries.length ∧
          (∀ e ∈ dbEntry.entries, e.calendarId = (1 : Int) →
            ∃ pe ∈ resp.entries, pe.id = e.id ∧ pe.day = e.day ∧
              pe.title = e.title ∧ pe.comment = e.comment ∧ pe.url = e.url ∧
              pe.imageURL = e.imageURL ∧
              ∃ u ∈ dbEntry.users, u.id = e.userId ∧
                pe.owner = some { id := u.id, name := u.name, iconURL := u.iconURL }) ∧
          (∀ pe ∈ resp.entries, ∃ e ∈ dbEntry.entries,
            e.calendarId = (1 : Int) ∧ pe.id = e.id) ∧
          resp.entries.Pairwise (fun a b => a.day ≤ b.day))) :=
  ⟨by decide, getCalendar_spec dbEntry (by decide) 1⟩

/-- The two inner joins of `ListEntries` succeed on a row whose foreign
keys resolve against unique-id tables, returning exactly the referenced
rows. -/
theorem joinEntry_eq_some (db : DB)
    (hndU : (db.users.map (fun u => u.id)).Nodup)
    (hndC : (db.calendars.map (fun c => c.id)).Nodup)
    (e : EntryRow) (u : UserRow) (hu : u ∈ db.users) (huid : u.id = e.userId)
    (c : CalendarRow) (hc : c ∈ db.calendars) (hcid : c.id = e.calendarId) :
    joinEntry db e = some (e, c, u) := by
  unfold joinEntry
  rw [find?_key_eq_some (fun x => x.id) e.userId db.users hndU u hu huid,
    find?_key_eq_some (fun x => x.id) e.calendarId db.calendars hndC c hc hcid]

/-- What a successful `joinEntry` says about its output row. -/
theorem joinEntry_inv (db : DB) (e : EntryRow)
    (row : EntryRow × CalendarRow × UserRow) (h : joinEntry db e = some row) :
    row.1 = e ∧ row.2.1 ∈ db.calendars ∧ row.2.1.id = e.calendarId ∧
    row.2.2 ∈ db.users ∧ row.2.2.id = e.userId := by
  unfold joinEntry at h
  rcases hu : db.users.find? (fun x => x.id == e.userId) with _ | u
  · rw [hu] at h
    cases h
  · rw [hu] at h
    rcases hc : db.calendars.find? (fun x => x.id == e.calendarId) with _ | c
    · rw [hc] at h
      cases h
    · rw [hc] at h
      cases h
      refine ⟨rfl, List.mem_of_find?_eq_some hc, ?_, List.mem_of_find?_eq_some hu, ?_⟩
      · have hcq := List.find?_some hc
        simpa using hcq
      · have huq := List.find?_some hu
        simpa using huq

/-- The rows of the `ListEntries` query come out ordered by ascending day. -/
theorem listEntriesRows_sorted (db : DB) (req : ListEntriesRequest) :
    (listEntriesRows db req).Pairwise (fun a b => a.1.day ≤ b.1.day) := by
  unfold listEntriesRows
  have hs := @List.sorted_mergeSort _ entryDayAsc3
    (fun a b c hab hbc => by
      unfold entryDayAsc3 at hab hbc ⊢
      simp only [decide_eq_true_eq] at hab hbc ⊢
      omega)
    (fun a b => by
      unfold entryDayAsc3
      simp only [Bool.or_eq_true, decide_eq_true_eq]
      omega)
    ((db.entries.filterMap (joinEntry db)).filter (entriesWhere req))
  exact hs.imp (fun h => by
    unfold entryDayAsc3 at h
    simpa using h)

/-- C8: on a well-formed database, `ListEntries(U, Y)` with nonzero `Y`
returns exactly the entries whose user_id is `U` and whose calendar's year
is `Y`, ordered by ascending day, each with its embedded calendar and
owner snapshot; with year 0 the year filter is dropped and all of `U`'s
entries are returned. -/
theorem listEntries_spec (db : DB) (hwf : db.WF) (uid y : Int) (hy : y ≠ 0)
    (resp : ListEntriesResponse)
    (hresp : listEntries db { userId := uid, year := y } false = .ok resp)
    (resp0 : ListEntriesResponse)
    (hresp0 : listEntries db { userId := uid, year := 0 } false = .ok resp0) :
    (∀ e ∈ db.entries, e.userId = uid →
      (∃ c ∈ db.calendars, c.id = e.calendarId ∧ c.year = y) →
      ∃ pe ∈ resp.entries, pe.id = e.id ∧ pe.day = e.day ∧ pe.title = e.title ∧
        pe.comment = e.comment ∧ pe.url = e.url ∧ pe.imageURL = e.imageURL ∧
        (∃ c ∈ db.calendars, c.id = e.calendarId ∧
          pe.calendar = some (calendarSnapshot c)) ∧
        (∃ u ∈ db.users, u.id = e.userId ∧ pe.owner = some (userSnapshot u))) ∧
    (∀ pe ∈ resp.entries, ∃ e ∈ db.entries, pe.id = e.id ∧ e.userId = uid ∧
      ∃ c ∈ db.calendars, c.id = e.calendarId ∧ c.year = y) ∧
    resp.entries.Pairwise (fun a b => a.day ≤ b.day) ∧
    (∀ e ∈ db.entries, e.userId = uid → ∃ pe ∈ resp0.entries, pe.id = e.id) ∧
    (∀ pe ∈ resp0.entries, ∃ e ∈ db.entries, pe.id = e.id ∧ e.userId = uid) := by
  obtain ⟨hndU, hndC, hndE, hndP, hU, hC, hE⟩ := hwf
  have hre : resp =
      { entries := (listEntriesRows db { userId := uid, year := y }).map scanEntry } := by
    have h0 : Outcome.ok
        { entries := (listEntriesRows db { userId := uid, year := y }).map scanEntry } =
        Outcome.ok resp := hresp
    exact (Outcome.ok.inj h0).symm
  have hre0 : resp0 =
      { entries := (listEntriesRows db { userId := uid, year := 0 }).map scanEntry } := by
    have h0 : Outcome.ok
        { entries := (listEntriesRows db { userId := uid, year := 0 }).map scanEntry } =
        Outcome.ok resp0 := hresp0
    exact (Outcome.ok.inj h0).symm
  subst hre
  subst hre0
  refine ⟨?_, ?_, ?_, ?_, ?_⟩
  · -- forward membership, year filter on
    intro e he heu ⟨c, hc, hcid, hcy⟩
    obtain ⟨_, ⟨u, hu, huid⟩, _⟩ := hE e he
    have hjoin := joinEntry_eq_some db hndU hndC e u hu huid c hc hcid
    have hrow : (e, c, u) ∈ (db.entries.filterMap (joinEntry db)).filter
        (entriesWhere { userId := uid, year := y }) := by
      rw [List.mem_filter]
      refine ⟨List.mem_filterMap.mpr ⟨e, he, hjoin⟩, ?_⟩
      unfold entriesWhere
      simp [heu, hcy]
    refine ⟨scanEntry (e, c, u), List.mem_map_of_mem _ (List.mem_mergeSort.mpr hrow),
      rfl, rfl, rfl, rfl, rfl, rfl, ⟨c, hc, hcid, rfl⟩, ⟨u, hu, huid, rfl⟩⟩
  · -- backward membership, year filter on
    intro pe hpe
    obtain ⟨row, hrow, hrowe⟩ := List.mem_map.mp hpe
    have hrow' := List.mem_mergeSort.mp hrow
    obtain ⟨hmem, hwhere⟩ := List.mem_filter.mp hrow'
    obtain ⟨e, he, hjoin⟩ := List.mem_filterMap.mp hmem
    obtain ⟨h1, hcmem, hcid, humem, huid⟩ := joinEntry_inv db e row hjoin
    unfold entriesWhere at hwhere
    simp only [Bool.and_eq_true, Bool.or_eq_true, beq_iff_eq] at hwhere
    obtain ⟨hweu, hwy⟩ := hwhere
    refine ⟨e, he, ?_, ?_, row.2.1, hcmem, hcid, ?_⟩
    · rw [← hrowe, ← h1]
      rfl
    · rw [← h1]
      exact hweu
    · rcases hwy with h | h
      · exact absurd h hy
      · exact h
  · -- ordered by ascending day
    rw [List.pairwise_map]
    exact listEntriesRows_sorted db { userId := uid, year := y }
  · -- forward membership, year filter off
    intro e he heu
    obtain ⟨_, ⟨u, hu, huid⟩, ⟨c, hc, hcid⟩⟩ := hE e he
    have hjoin := joinEntry_eq_some db hndU hndC e u hu huid c hc hcid
    have hrow : (e, c, u) ∈ (db.entries.filterMap (joinEntry db)).filter
        (entriesWhere { userId := uid, year := 0 }) := by
      rw [List.mem_filter]
      refine ⟨List.mem_filterMap.mpr ⟨e, he, hjoin⟩, ?_⟩
      unfold entriesWhere
      simp [heu]
    exact ⟨scanEntry (e, c, u), List.mem_map_of_mem _ (List.mem_mergeSort.mpr hrow), rfl⟩
  · -- backward membership, year filter off
    intro pe hpe
    obtain ⟨row, hrow, hrowe⟩ := List.mem_map.mp hpe
    have hrow' := List.mem_mergeSort.mp hrow
    obtain ⟨hmem, hwhere⟩ := List.mem_filter.mp hrow'
    obtain ⟨e, he, hjoin⟩ := List.mem_filterMap.mp hmem
    obtain ⟨h1, _, _, _, _⟩ := joinEntry_inv db e row hjoin
    unfold entriesWhere at hwhere
    simp only [Bool.and_eq_true, Bool.or_eq_true, beq_iff_eq] at hwhere
    refine ⟨e, he, ?_, ?_⟩
    · rw [← hrowe, ← h1]
      rfl
    · rw [← h1]
      exact hwhere.1

/-- Witness for C8 on the fixture database with one entry, year 2023. -/
theorem listEntries_spec_witness :
    dbEntry.WF ∧ (2023 : Int) ≠ 0 ∧
    listEntries dbEntry { userId := 1, year := 2023 } false =
      .ok { entries :=
        (listEntriesRows dbEntry { userId := 1, year := 2023 }).map scanEntry } ∧
    listEntries dbEntry { userId := 1, year := 0 } false =
      .ok { entries :=
        (listEntriesRows dbEntry { userId := 1, year := 0 }).map scanEntry } ∧
    ((∀ e ∈ dbEntry.entries, e.userId = (1 : Int) →
        (∃ c ∈ dbEntry.calendars, c.id = e.calendarId ∧ c.year = (2023 : Int)) →
        ∃ pe ∈ (listEntriesRows dbEntry { userId := 1, year := 2023 }).map scanEntry,
          pe.id = e.id ∧ pe.day = e.day ∧ pe.title = e.title ∧
          pe.comment = e.comment ∧ pe.url = e.url ∧ pe.imageURL = e.imageURL ∧
          (∃ c ∈ dbEntry.calendars, c.id = e.calendarId ∧
            pe.calendar = some (calendarSnapshot c)) ∧
          (∃ u ∈ dbEntry.users, u.id = e.userId ∧ pe.owner = some (userSnapshot u))) ∧
      (∀ pe ∈ (listEntriesRows dbEntry { userId := 1, year := 2023 }).map scanEntry,
        ∃ e ∈ dbEntry.entries, pe.id = e.id ∧ e.userId = (1 : Int) ∧
        ∃ c ∈ dbEntry.calendars, c.id = e.calendarId ∧ c.year = (2023 : Int)) ∧
      ((listEntriesRows dbEntry { userId := 1, year := 2023 }).map scanEntry).Pairwise
        (fun a b => a.day ≤ b.day) ∧
      (∀ e ∈ dbEntry.entries, e.userId = (1 : Int) →
        ∃ pe ∈ (listEntriesRows dbEntry { userId := 1, year := 0 }).map scanEntry,
          pe.id = e.id) ∧
      (∀ pe ∈ (listEntriesRows dbEntry { userId := 1, year := 0 }).map scanEntry,
        ∃ e ∈ dbEntry.entries, pe.id = e.id ∧ e.userId = (1 : Int))) :=
  ⟨by decide, by decide, rfl, rfl,
    listEntries_spec dbEntry (by decide) 1 2023 (by decide) _ rfl _ rfl⟩

/-- The aggregate entry count is the count of entries rows referencing the
calendar id. -/
theorem entryCountFor_eq_countP (db : DB) (cid : Int) :
    entryCountFor db cid = db.entries.countP (fun e => e.calendarId == cid) := by
  unfold entryCountFor
  rw [List.countP_eq_length_filter]

/-- The calendars returned by `ListCalendars` are the query rows scanned
and, uniformly over both branches of the length guard, carrying the
aggregate entry count (an empty row list maps to an empty result). -/
theorem listCalendars_calendars (db : DB) (req : ListCalendarsRequest) :
    (listCalendars db req).1.calendars =
      (listCalendarsRows db req).map
        (fun r => { scanCalendar r with entryCount := entryCountFor db r.1.id }) := by
  unfold listCalendars bindEntryCount
  rcases listCalendarsRows db req with _ | ⟨r, rs⟩
  · simp
  · simp [List.map_map]
    exact ⟨rfl, fun a b _ => rfl⟩

/-- The aggregate query of `ListCalendars` is skipped exactly when the
result set is empty. -/
theorem listCalendars_skip (db : DB) (req : ListCalendarsRequest) :
    ((listCalendars db req).2 = false ↔ (listCalendars db req).1.calendars = []) := by
  unfold listCalendars bindEntryCount
  rcases listCalendarsRows db req with _ | ⟨r, rs⟩ <;> simp

/-- What a successful `joinCalendarOwner` says about its output row. -/
theorem joinCalendarOwner_inv (db : DB) (c : CalendarRow)
    (row : CalendarRow × UserRow) (h : joinCalendarOwner db c = some row) :
    row.1 = c ∧ row.2 ∈ db.users ∧ row.2.id = c.userId := by
  unfold joinCalendarOwner at h
  rcases hu : db.users.find? (fun x => x.id == c.userId) with _ | u
  · rw [hu] at h
    cases h
  · rw [hu] at h
    cases h
    refine ⟨rfl, List.mem_of_find?_eq_some hu, ?_⟩
    have huq := List.find?_some hu
    simpa using huq

/-- With no owner filter, no search string and no page size, the rows of
the `ListCalendars` query are the year's calendars joined with their
owners, ordered by id descending. -/
theorem listCalendarsRows_year (db : DB) (y : Int) :
    listCalendarsRows db { year := y, userId := 0, query := "", pageSize := 0 } =
      ((db.calendars.filter (fun c => c.year == y)).filterMap
        (joinCalendarOwner db)).mergeSort calendarIdDesc := by
  unfold listCalendarsRows
  have hcong : db.calendars.filter
      (calendarWhere { year := y, userId := 0, query := "", pageSize := 0 }) =
      db.calendars.filter (fun c => c.year == y) := by
    apply List.filter_congr
    intro c hc
    unfold calendarWhere
    simp
  rw [hcong]
  simp

/-- C6: on a well-formed database, `ListCalendars(year, 0, "", 0)` returns
exactly the calendars of that year (with their owner snapshots), ordered by
id descending, each carrying an entryCount equal to the number of entries
rows referencing it (zero when none, via the aggregate map's default), and
the aggregate query is skipped exactly when the result set is empty. -/
theorem listCalendars_year_spec (db : DB) (hwf : db.WF) (y : Int) :
    (∀ c ∈ db.calendars, c.year = y →
      ∃ pc ∈ (listCalendars db
          { year := y, userId := 0, query := "", pageSize := 0 }).1.calendars,
        pc.id = c.id ∧ pc.title = c.title ∧ pc.description = c.description ∧
        pc.year = c.year ∧
        pc.entryCount = db.entries.countP (fun e => e.calendarId == c.id) ∧
        (∃ u ∈ db.users, u.id = c.userId ∧ pc.owner = some (userSnapshot u))) ∧
    (∀ pc ∈ (listCalendars db
        { year := y, userId := 0, query := "", pageSize := 0 }).1.calendars,
      ∃ c ∈ db.calendars, c.year = y ∧ pc.id = c.id ∧
        pc.entryCount = db.entries.countP (fun e => e.calendarId == c.id)) ∧
    (listCalendars db
        { year := y, userId := 0, query := "", pageSize := 0 }).1.calendars.Pairwise
      (fun a b => b.id ≤ a.id) ∧
    ((listCalendars db { year := y, userId := 0, query := "", pageSize := 0 }).2 =
        false ↔
      (listCalendars db
        { year := y, userId := 0, query := "", pageSize := 0 }).1.calendars = []) := by
  obtain ⟨hndU, hndC, hndE, hndP, hU, hC, hE⟩ := hwf
  refine ⟨?_, ?_, ?_, listCalendars_skip db _⟩
  · -- every calendar of the year appears, with owner and aggregate count
    intro c hc hcy
    obtain ⟨_, u, hu, huid⟩ := hC c hc
    have hjoin : joinCalendarOwner db c = some (c, u) := by
      unfold joinCalendarOwner
      rw [find?_key_eq_some (fun x => x.id) c.userId db.users hndU u hu huid]
      rfl
    have hrow : (c, u) ∈ (db.calendars.filter (fun x => x.year == y)).filterMap
        (joinCalendarOwner db) :=
      List.mem_filterMap.mpr ⟨c, List.mem_filter.mpr ⟨hc, by simp [hcy]⟩, hjoin⟩
    rw [listCalendars_calendars, listCalendarsRows_year]
    refine ⟨_, List.mem_map_of_mem _ (List.mem_mergeSort.mpr hrow),
      rfl, rfl, rfl, rfl, ?_, u, hu, huid, rfl⟩
    exact entryCountFor_eq_countP db c.id
  · -- only calendars of the year appear
    intro pc hpc
    rw [listCalendars_calendars, listCalendarsRows_year] at hpc
    obtain ⟨row, hrow, hrowe⟩ := List.mem_map.mp hpc
    have hrow' := List.mem_mergeSort.mp hrow
    obtain ⟨c0, hc0f, hjoin⟩ := List.mem_filterMap.mp hrow'
    obtain ⟨hc0, hc0y⟩ := List.mem_filter.mp hc0f
    obtain ⟨h1, _, _⟩ := joinCalendarOwner_inv db c0 row hjoin
    refine ⟨c0, hc0, beq_iff_eq.mp hc0y, ?_, ?_⟩
    · rw [← hrowe, ← h1]
      rfl
    · rw [← hrowe, ← h1]
      exact entryCountFor_eq_countP db row.1.id
  · -- ordered by id descending
    rw [listCalendars_calendars]
    rw [List.pairwise_map]
    unfold listCalendarsRows
    rcases hps : ((0 : Int) == 0) with _ | _
    · simp at hps
    · have hs := @List.sorted_mergeSort _ calendarIdDesc
        (fun a b c hab hbc => by
          unfold calendarIdDesc at hab hbc ⊢
          simp only [decide_eq_true_eq] at hab hbc ⊢
          omega)
        (fun a b => by
          unfold calendarIdDesc
          simp only [Bool.or_eq_true, decide_eq_true_eq]
          omega)
        ((db.calendars.filter
          (calendarWhere { year := y, userId := 0, query := "", pageSize := 0 })).filterMap
            (joinCalendarOwner db))
      simp only [hps, if_true]
      exact hs.imp (fun h => by
        unfold calendarIdDesc at h
        simpa using h)

/-- Witness for C6 on the two-calendar fixture database. -/
theorem listCalendars_year_spec_witness :
    dbFull.WF ∧
    ((∀ c ∈ dbFull.calendars, c.year = (2023 : Int) →
        ∃ pc ∈ (listCalendars dbFull
            { year := 2023, userId := 0, query := "", pageSize := 0 }).1.calendars,
          pc.id = c.id ∧ pc.title = c.title ∧ pc.description = c.description ∧
          pc.year = c.year ∧
          pc.entryCount = dbFull.entries.countP (fun e => e.calendarId == c.id) ∧
          (∃ u ∈ dbFull.users, u.id = c.userId ∧ pc.owner = some (userSnapshot u))) ∧
      (∀ pc ∈ (listCalendars dbFull
          { year := 2023, userId := 0, query := "", pageSize := 0 }).1.calendars,
        ∃ c ∈ dbFull.calendars, c.year = (2023 : Int) ∧ pc.id = c.id ∧
          pc.entryCount = dbFull.entries.countP (fun e => e.calendarId == c.id)) ∧
      (listCalendars dbFull
          { year := 2023, userId := 0, query := "", pageSize := 0 }).1.calendars.Pairwise
        (fun a b => b.id ≤ a.id) ∧
      ((listCalendars dbFull
          { year := 2023, userId := 0, query := "", pageSize := 0 }).2 = false ↔
        (listCalendars dbFull
          { year := 2023, userId := 0, query := "", pageSize := 0 }).1.calendars = [])) :=
  ⟨by decide, listCalendars_year_spec dbFull (by decide) 2023⟩

end Adventar
